import Mathlib

/-!
Verification of the authentication subsystem of the go-chi todolist backend.

The Go sources are shallowly embedded: strings are `List Char` where the byte
structure matters (the OAuth state token of `internal/auth/state.go`) and
`String` elsewhere; machine integers are `Int`/`Nat`; fallible calls return
`Except`/`Option`; the external primitives (HMAC-SHA256, `fmt.Sscan`, bcrypt,
`mail.ParseAddress`) are abstract parameters, while everything the repository
itself implements is translated concretely.
-/

namespace TodoAuth

/-! ## State Protector (`internal/auth/state.go`) -/

/-- `StateExpiry = 10 * time.Minute`, in seconds. -/
def stateExpirySecs : Int := 600

/-- Error values of `state.go`: `ErrInvalidStateFormat`, `ErrInvalidStateMAC`,
`ErrStateExpired`. -/
inductive StateErr
  | invalidFormat
  | invalidMAC
  | expired
deriving DecidableEq, Repr

/-- Result of `VerifyAndExtractState`; `panicked` models the Go `panic` on an
empty secret key. -/
inductive StateVerifyRes
  | panicked
  | err (e : StateErr)
  | ok (nonce : List Char)
deriving DecidableEq, Repr

/-- One row of the `hextable` lookup of `encoding/hex` (lowercase). -/
def hexDigitChar : Nat → Char
  | 0 => '0' | 1 => '1' | 2 => '2' | 3 => '3' | 4 => '4'
  | 5 => '5' | 6 => '6' | 7 => '7' | 8 => '8' | 9 => '9'
  | 10 => 'a' | 11 => 'b' | 12 => 'c' | 13 => 'd' | 14 => 'e'
  | _ => 'f'

/-- `hex.EncodeToString`: each byte becomes `hextable[b>>4], hextable[b&0x0f]`. -/
def hexEncode (bs : List Nat) : List Char :=
  bs.foldr (fun b acc => hexDigitChar (b / 16 % 16) :: hexDigitChar (b % 16) :: acc) []

/-- `strings.Split` on the single-character separator `"."`. -/
def splitOnDot : List Char → List (List Char)
  | [] => [[]]
  | c :: rest =>
    if c = '.' then [] :: splitOnDot rest
    else
      match splitOnDot rest with
      | [] => [[c]]
      | h :: t => (c :: h) :: t

/-- Fuel-driven digit accumulator (`fuel ≥` the digit count always holds for
`fuel = n + 1`). -/
def natDecimalAux : Nat → Nat → List Char → List Char
  | 0, _, acc => acc
  | fuel + 1, n, acc =>
    if n < 10 then Char.ofNat (48 + n) :: acc
    else natDecimalAux fuel (n / 10) (Char.ofNat (48 + n % 10) :: acc)

/-- Decimal digits of a natural number, as produced by `fmt.Sprintf("%d", _)`. -/
def natDecimal (n : Nat) : List Char := natDecimalAux (n + 1) n []

/-- `fmt.Sprintf("%d", t)` for a signed 64-bit timestamp. -/
def intDecimal (t : Int) : List Char :=
  if t < 0 then '-' :: natDecimal t.natAbs else natDecimal t.toNat

/-- External primitives used by `state.go`: the HMAC-SHA256 of `crypto/hmac`
(key bytes and message to MAC bytes) and the integer scanner of `fmt.Sscan`.
Both live outside the repository and are kept abstract. -/
structure StatePrims where
  hmacSha256 : List Nat → List Char → List Nat
  sscanInt : List Char → Option Int

/-- `SignState`: build `nonce + "." + timestamp`, HMAC it, hex-encode, and
append as a third field.  `none` models the panic on an empty secret. -/
def signState (p : StatePrims) (stateValue : List Char) (secretKey : List Nat)
    (timestamp : Int) : Option (List Char) :=
  if secretKey = [] then none
  else
    let message := stateValue ++ '.' :: intDecimal timestamp
    let signature := hexEncode (p.hmacSha256 secretKey message)
    some (message ++ '.' :: signature)

/-- `VerifyAndExtractState`: split on `"."` into exactly 3 fields, recompute
and compare the MAC, parse the timestamp with `fmt.Sscan`, and enforce
`time.Since(timestamp) > StateExpiry`. -/
def verifyAndExtractState (p : StatePrims) (signedState : List Char)
    (secretKey : List Nat) (now : Int) : StateVerifyRes :=
  if secretKey = [] then .panicked
  else
    match splitOnDot signedState with
    | [originalState, timestampStr, receivedSignature] =>
      let message := originalState ++ '.' :: timestampStr
      let expectedSignature := hexEncode (p.hmacSha256 secretKey message)
      if receivedSignature ≠ expectedSignature then .err .invalidMAC
      else
        match p.sscanInt timestampStr with
        | none => .err .invalidFormat
        | some timestamp =>
          if now - timestamp > stateExpirySecs then .err .expired
          else .ok originalState
    | _ => .err .invalidFormat

/-! ## Domain model (`internal/domain/user.go`, `internal/domain/errors.go`) -/

/-- `domain.User`.  `id` stands for the `uuid.UUID` primary key rendered as a
string; `googleId` is the nullable `GoogleID *string` column. -/
structure User where
  id : String
  username : String
  email : String
  passwordHash : String
  emailVerified : Bool
  googleId : Option String
  createdAt : Int
  updatedAt : Int
deriving DecidableEq, Repr

/-- The sentinel error taxonomy of `domain/errors.go` that the auth service
returns (the unused sentinels are omitted). -/
inductive ErrKind
  | validation
  | unauthorized
  | conflict
  | internal
deriving DecidableEq, Repr

/-- A service-level error: the wrapped sentinel plus the human message built by
`fmt.Errorf` around it. -/
structure Err where
  kind : ErrKind
  msg : String
deriving DecidableEq, Repr

/-! ## User store (`pgxUserRepository` over the sqlc `users` queries) -/

/-- The in-memory model of the `users` table: a list of rows. -/
abbrev Store := List User

/-- `GetUserByID` / `repository.GetByID` (found row or `ErrNotFound`). -/
def getByID (st : Store) (id : String) : Option User :=
  st.find? (fun u => u.id == id)

/-- `GetUserByEmail` / `repository.GetByEmail`. -/
def getByEmail (st : Store) (email : String) : Option User :=
  st.find? (fun u => u.email == email)

/-- `GetUserByGoogleID` / `repository.GetByGoogleID`. -/
def getByGoogleID (st : Store) (gid : String) : Option User :=
  st.find? (fun u => u.googleId == some gid)

inductive RepoErr
  | notFound
  | conflict
deriving DecidableEq, Repr

/-- A row violating one of the unique constraints of the `users` table
(`username`, `email`, `google_id` — the last only when non-null). -/
def uniqueViolation (st : Store) (u : User) : Bool :=
  st.any (fun v =>
    v.username == u.username || v.email == u.email ||
      (u.googleId.isSome && v.googleId == u.googleId))

/-- `repository.Create`: `INSERT` with the server-generated id and timestamps;
a `23505` unique violation is mapped to `domain.ErrConflict`. -/
def createUser (st : Store) (freshId : String) (now : Int) (u : User) :
    Except RepoErr (User × Store) :=
  let created := { u with id := freshId, createdAt := now, updatedAt := now }
  if uniqueViolation st created then .error .conflict
  else .ok (created, st ++ [created])

/-- The `UpdateUser` sqlc query as marshalled by `pgxUserRepository.Update`:
empty `Username`/`Email` strings and a nil `GoogleID` become SQL `NULL`, and
every `NULL` argument `COALESCE`s to the current column value; `EmailVerified`
is always sent non-null; `password_hash` and `created_at` are not in the `SET`
list; the `set_timestamp_users` trigger bumps `updated_at` to `NOW()`. -/
def applyUserPatch (now : Int) (cur : User) (patch : User) : User :=
  { cur with
    username := if patch.username ≠ "" then patch.username else cur.username
    email := if patch.email ≠ "" then patch.email else cur.email
    emailVerified := patch.emailVerified
    googleId :=
      match patch.googleId with
      | some g => some g
      | none => cur.googleId
    updatedAt := now }

/-- Replace the row with the given id. -/
def listUpdate (st : Store) (id : String) (u : User) : Store :=
  st.map (fun v => if v.id == id then u else v)

/-- `repository.Update`: a `GetByID` pre-read (`ErrNotFound` when absent), then
the `COALESCE` update; a unique violation against any other row is
`ErrConflict`. -/
def updateUser (st : Store) (id : String) (patch : User) (now : Int) :
    Except RepoErr (User × Store) :=
  match getByID st id with
  | none => .error .notFound
  | some cur =>
    let updated := applyUserPatch now cur patch
    if st.any (fun v =>
        v.id != id &&
          (v.username == updated.username || v.email == updated.email ||
            (updated.googleId.isSome && v.googleId == updated.googleId))) then
      .error .conflict
    else .ok (updated, listUpdate st id updated)

/-- A repository call made by the service, for stating read/write traces. -/
inductive StoreOp
  | opGetByID (id : String)
  | opGetByEmail (email : String)
  | opGetByGoogleID (gid : String)
  | opCreate (u : User)
  | opUpdate (id : String) (patch : User)
deriving DecidableEq, Repr

/-- Calls that can mutate the store. -/
def StoreOp.isWrite : StoreOp → Bool
  | .opCreate _ => true
  | .opUpdate _ _ => true
  | _ => false

/-- Pairwise uniqueness of `id`, `username`, `email` and non-null `google_id`
across the table — the unique indexes the schema enforces. -/
def storeWFb : Store → Bool
  | [] => true
  | u :: rest =>
    rest.all (fun v =>
      u.id != v.id && u.username != v.username && u.email != v.email &&
        (u.googleId == none || v.googleId == none || u.googleId != v.googleId)) &&
      storeWFb rest

/-! ## Token Service (`authService.GenerateJWT` / `authService.ValidateJWT`) -/

/-- JOSE algorithm identifiers relevant to `golang-jwt/jwt/v5`: the three
members of `*jwt.SigningMethodHMAC` and representatives of every other
method class a token could assert. -/
inductive JwtAlg
  | HS256
  | HS384
  | HS512
  | RS256
  | ES256
  | EdDSA
  | algNone
deriving DecidableEq, Repr

/-- `token.Method.(*jwt.SigningMethodHMAC)` succeeds exactly on these. -/
def JwtAlg.isHMAC : JwtAlg → Bool
  | .HS256 | .HS384 | .HS512 => true
  | _ => false

/-- `auth.Claims`: the custom `UserID` plus the registered claims that
`GenerateJWT` fills in. -/
structure Claims where
  userId : String
  subject : String
  issuedAt : Int
  expiresAt : Int
deriving DecidableEq, Repr

/-- A parsed JWT: asserted algorithm, claims, and signature over them.  The
base64 transport encoding is left implicit — a token that does not decode at
all (`jwt.ErrTokenMalformed`) has no representative here. -/
structure JwtToken where
  alg : JwtAlg
  claims : Claims
  sig : String
deriving DecidableEq, Repr

/-- The signing primitive of the jwt library: for algorithm `a`, key `k` and
claims `c` it produces the signature bytes; verification recomputes it and
compares.  Abstract — it lives in `golang-jwt` and `crypto/hmac`. -/
def JwtSigner : Type := JwtAlg → String → Claims → String

/-- `config.JWTConfig`: the fields `GenerateJWT`/`ValidateJWT` read. -/
structure Config where
  jwtSecret : String
  jwtExpiryMinutes : Int
deriving DecidableEq, Repr

/-- `GenerateJWT`: claims `{UserID, ExpiresAt = now + ExpiryMinutes minutes,
IssuedAt = now, Subject = user.ID.String()}` signed with `SigningMethodHS256`
and the configured secret. -/
def generateJWT (hs : JwtSigner) (cfg : Config) (now : Int) (user : User) : JwtToken :=
  let expirationTime := now + cfg.jwtExpiryMinutes * 60
  let claims : Claims :=
    { userId := user.id, subject := user.id, issuedAt := now, expiresAt := expirationTime }
  { alg := .HS256, claims := claims, sig := hs .HS256 cfg.jwtSecret claims }

/-- `ValidateJWT`: `jwt.ParseWithClaims` with a keyfunc that rejects any
method that is not `*jwt.SigningMethodHMAC` and otherwise returns the one
configured secret; the library then verifies the signature, checks expiry
(`jwt/v5` requires `now < exp`), and the service resolves `claims.UserID`
through the store (`ErrNotFound` surfacing as `Unauthorized`). -/
def validateJWT (hs : JwtSigner) (cfg : Config) (st : Store) (now : Int)
    (tok : JwtToken) : Except Err User :=
  if ¬ tok.alg.isHMAC then .error ⟨.unauthorized, "invalid token"⟩
  else if tok.sig ≠ hs tok.alg cfg.jwtSecret tok.claims then
    .error ⟨.unauthorized, "invalid token"⟩
  else if tok.claims.expiresAt ≤ now then
    .error ⟨.unauthorized, "token has expired"⟩
  else
    match getByID st tok.claims.userId with
    | none => .error ⟨.unauthorized, "user associated with token not found"⟩
    | some user => .ok user

/-! ## Account Resolver (`authService.Signup` / `Login` /
`HandleGoogleCallback`, with the validators of `validation.go`) -/

structure SignupCredentials where
  username : String
  email : String
  password : String
deriving DecidableEq, Repr

structure LoginCredentials where
  email : String
  password : String
deriving DecidableEq, Repr

/-- Outcome of `bcrypt.CompareHashAndPassword`. -/
inductive BcryptResult
  | matched
  | mismatched
  | errored
deriving DecidableEq, Repr

/-- External primitives of the service: `mail.ParseAddress` success,
`bcrypt.GenerateFromPassword`, `bcrypt.CompareHashAndPassword`. -/
structure AuthExt where
  emailValid : String → Bool
  bcryptHash : String → Except Unit String
  bcryptCompare : String → String → BcryptResult

/-- `ValidateUsername`: `MinUsernameLength ≤ len ≤ MaxUsernameLength`
(Go `len` = UTF-8 bytes). -/
def validateUsername (username : String) : Bool :=
  3 ≤ username.utf8ByteSize && username.utf8ByteSize ≤ 50

/-- `ValidatePassword`: `len ≥ MinPasswordLength`. -/
def validatePassword (password : String) : Bool :=
  6 ≤ password.utf8ByteSize

/-- `ValidateSignupInput`. -/
def validateSignupInput (ext : AuthExt) (creds : SignupCredentials) : Bool :=
  validateUsername creds.username && ext.emailValid creds.email &&
    validatePassword creds.password

/-- `ValidateLoginInput`: email syntax plus password presence. -/
def validateLoginInput (ext : AuthExt) (creds : LoginCredentials) : Bool :=
  ext.emailValid creds.email && creds.password != ""

/-- The `newUser` literal that `Signup` sends to `Create`:
`emailVerified = false`, no google id. -/
def signupNewUser (creds : SignupCredentials) (hashedPassword : String) : User :=
  { id := "", username := creds.username, email := creds.email,
    passwordHash := hashedPassword, emailVerified := false,
    googleId := none, createdAt := 0, updatedAt := 0 }

/-- `authService.Signup`, with the store state threaded explicitly and the
repository calls traced. -/
def signup (ext : AuthExt) (st : Store) (freshId : String) (now : Int)
    (creds : SignupCredentials) : Except Err User × Store × List StoreOp :=
  if ¬ validateSignupInput ext creds then
    (.error ⟨.validation, "validation failed"⟩, st, [])
  else
    match ext.bcryptHash creds.password with
    | .error _ => (.error ⟨.internal, "internal server error"⟩, st, [])
    | .ok hashedPassword =>
      let newUser : User := signupNewUser creds hashedPassword
      match createUser st freshId now newUser with
      | .ok (createdUser, st') => (.ok createdUser, st', [.opCreate createdUser])
      | .error _ =>
        match getByEmail st creds.email with
        | some _ =>
          (.error ⟨.conflict, "email already exists"⟩, st,
            [.opCreate newUser, .opGetByEmail creds.email])
        | none =>
          (.error ⟨.conflict, "username already exists"⟩, st,
            [.opCreate newUser, .opGetByEmail creds.email])

/-- `authService.Login`. -/
def login (ext : AuthExt) (hs : JwtSigner) (cfg : Config) (now : Int)
    (st : Store) (creds : LoginCredentials) : Except Err (JwtToken × User) :=
  if ¬ validateLoginInput ext creds then
    .error ⟨.validation, "validation failed"⟩
  else
    match getByEmail st creds.email with
    | none => .error ⟨.unauthorized, "invalid email or password"⟩
    | some user =>
      if user.passwordHash == "" && user.googleId.isSome then
        .error ⟨.unauthorized, "please log in using Google"⟩
      else if user.passwordHash == "" then
        .error ⟨.internal, "account error, please contact support"⟩
      else
        match ext.bcryptCompare user.passwordHash creds.password with
        | .mismatched => .error ⟨.unauthorized, "invalid email or password"⟩
        | .errored => .error ⟨.internal, "internal server error"⟩
        | .matched => .ok (generateJWT hs cfg now user, user)

/-- `service.GoogleUserInfo` as decoded from the provider response. -/
structure GoogleUserInfo where
  id : String
  email : String
  verifiedEmail : Bool
  name : String
deriving DecidableEq, Repr

/-- Outcome of the two provider calls of the callback: whether
`ExchangeCode` succeeded, and what `FetchUserInfo` would return if reached. -/
structure ProviderResult where
  exchangeOk : Bool
  userInfo : Except Unit GoogleUserInfo

/-- The Go zero value of `domain.User`, used for partial-update literals. -/
def emptyUser : User :=
  { id := "", username := "", email := "", passwordHash := "",
    emailVerified := false, googleId := none, createdAt := 0, updatedAt := 0 }

/-- The `updateData` literal of the linking branch:
`&domain.User{GoogleID: &userInfo.ID, EmailVerified: true}`. -/
def linkPatch (gid : String) : User :=
  { emptyUser with googleId := some gid, emailVerified := true }

/-- `authService.HandleGoogleCallback`: exchange the code, fetch the profile,
reject unverified email, then resolve by `google_id`, by `email` (conflict or
link), or create a fresh user.  Returns the result, the resulting store, and
the trace of repository calls in order. -/
def handleGoogleCallback (hs : JwtSigner) (cfg : Config) (now : Int)
    (freshId : String) (prov : ProviderResult) (st : Store) :
    Except Err (JwtToken × User) × Store × List StoreOp :=
  if ¬ prov.exchangeOk then
    (.error ⟨.unauthorized, "google auth exchange failed"⟩, st, [])
  else
    match prov.userInfo with
    | .error _ => (.error ⟨.unauthorized, "failed to get user info from google"⟩, st, [])
    | .ok userInfo =>
      if ¬ userInfo.verifiedEmail then
        (.error ⟨.unauthorized, "google email not verified"⟩, st, [])
      else
        match getByGoogleID st userInfo.id with
        | some user =>
          (.ok (generateJWT hs cfg now user, user), st, [.opGetByGoogleID userInfo.id])
        | none =>
          match getByEmail st userInfo.email with
          | some user =>
            match user.googleId with
            | some existingGoogleId =>
              if existingGoogleId ≠ userInfo.id then
                (.error ⟨.conflict, "email already linked to a different Google account"⟩,
                  st, [.opGetByGoogleID userInfo.id, .opGetByEmail userInfo.email])
              else
                (.ok (generateJWT hs cfg now user, user), st,
                  [.opGetByGoogleID userInfo.id, .opGetByEmail userInfo.email])
            | none =>
              let patch := linkPatch userInfo.id
              match updateUser st user.id patch now with
              | .error _ =>
                (.error ⟨.internal, "internal server error"⟩, st,
                  [.opGetByGoogleID userInfo.id, .opGetByEmail userInfo.email,
                    .opUpdate user.id patch])
              | .ok (updatedUser, st') =>
                (.ok (generateJWT hs cfg now updatedUser, updatedUser), st',
                  [.opGetByGoogleID userInfo.id, .opGetByEmail userInfo.email,
                    .opUpdate user.id patch])
          | none =>
            let newUser : User :=
              { id := "", username := userInfo.name, email := userInfo.email,
                passwordHash := "", emailVerified := true,
                googleId := some userInfo.id, createdAt := 0, updatedAt := 0 }
            match createUser st freshId now newUser with
            | .error _ =>
              (.error ⟨.conflict, "failed to create user, potential conflict"⟩, st,
                [.opGetByGoogleID userInfo.id, .opGetByEmail userInfo.email,
                  .opCreate newUser])
            | .ok (createdUser, st') =>
              (.ok (generateJWT hs cfg now createdUser, createdUser), st',
                [.opGetByGoogleID userInfo.id, .opGetByEmail userInfo.email,
                  .opCreate newUser])

/-! ## Concrete instantiations of the abstract primitives, used to evaluate
the theorems at specific inputs -/

/-- Value of a list of decimal digit characters. -/
def digitsToNat (ds : List Char) : Nat :=
  ds.foldl (fun a c => a * 10 + (c.toNat - 48)) 0

/-- A concrete integer scanner agreeing with `fmt.Sscan` on optionally signed
decimal tokens, for instantiating `StatePrims.sscanInt`. -/
def demoSscan (s : List Char) : Option Int :=
  match s with
  | '-' :: ds =>
    if !ds.isEmpty && ds.all Char.isDigit then some (-(digitsToNat ds : Int)) else none
  | ds =>
    if !ds.isEmpty && ds.all Char.isDigit then some ((digitsToNat ds : Int)) else none

/-- A concrete (insecure, but executable) stand-in for HMAC-SHA256 together
with `demoSscan`. -/
def demoPrims : StatePrims :=
  { hmacSha256 := fun key msg => [(key.foldl (· + ·) 0 + msg.length) % 256]
    sscanInt := demoSscan }

/-- A concrete stand-in for the jwt signing primitive. -/
def demoSigner : JwtSigner := fun _ _ _ => "mac-bytes"

def demoCfg : Config := { jwtSecret := "topsecret", jwtExpiryMinutes := 60 }

def demoUserA : User :=
  { id := "u-1", username := "alice", email := "alice@example.com",
    passwordHash := "hashA", emailVerified := true, googleId := none,
    createdAt := 0, updatedAt := 0 }

def demoStoreA : Store := [demoUserA]

def demoHs384Token : JwtToken :=
  { alg := .HS384,
    claims := { userId := "u-1", subject := "u-1", issuedAt := 0, expiresAt := 3600 },
    sig := demoSigner .HS384 "topsecret"
      { userId := "u-1", subject := "u-1", issuedAt := 0, expiresAt := 3600 } }

def demoRs256Token : JwtToken :=
  { alg := .RS256,
    claims := { userId := "u-1", subject := "u-1", issuedAt := 0, expiresAt := 3600 },
    sig := "asymmetric-sig" }

/-- External primitives instantiated so that every email parses, hashing
succeeds, and password comparison mismatches. -/
def demoExt : AuthExt :=
  { emailValid := fun _ => true
    bcryptHash := fun _ => .ok "bcrypt-hash"
    bcryptCompare := fun _ _ => .mismatched }

/-- A stored row violating the reachability invariant: empty password hash and
no google id. -/
def passwordlessUser : User :=
  { id := "u-2", username := "bobby", email := "bob@example.com",
    passwordHash := "", emailVerified := false, googleId := none,
    createdAt := 0, updatedAt := 0 }

def demoStoreB : Store := [passwordlessUser]

def demoLoginCreds : LoginCredentials := { email := "bob@example.com", password := "secret1" }

def googleLinkedUser : User :=
  { id := "u-2g", username := "bobbyg", email := "bobg@example.com",
    passwordHash := "", emailVerified := true, googleId := some "g-bob",
    createdAt := 0, updatedAt := 0 }

def demoStoreBg : Store := [googleLinkedUser]

def demoLoginCredsG : LoginCredentials := { email := "bobg@example.com", password := "secret1" }

def uiConflict : GoogleUserInfo :=
  { id := "g-new", email := "carol@example.com", verifiedEmail := true, name := "Carol" }

def userConflict : User :=
  { id := "u-3", username := "carol", email := "carol@example.com",
    passwordHash := "hashC", emailVerified := true, googleId := some "g-old",
    createdAt := 0, updatedAt := 0 }

def provConflict : ProviderResult := { exchangeOk := true, userInfo := .ok uiConflict }

def uiLink : GoogleUserInfo :=
  { id := "g-5", email := "dave@example.com", verifiedEmail := true, name := "Dave" }

def userLink : User :=
  { id := "u-4", username := "dave", email := "dave@example.com",
    passwordHash := "hashD", emailVerified := false, googleId := none,
    createdAt := 3, updatedAt := 3 }

def provLink : ProviderResult := { exchangeOk := true, userInfo := .ok uiLink }

def uiUnverified : GoogleUserInfo :=
  { id := "g-6", email := "eve@example.com", verifiedEmail := false, name := "Eve" }

def provUnverified : ProviderResult := { exchangeOk := true, userInfo := .ok uiUnverified }

def credsTakenEmail : SignupCredentials :=
  { username := "frank", email := "alice@example.com", password := "password1" }

/-! ### Store lemmas -/

theorem find?_mem_of_eq_some {p : User → Bool} {st : Store} {u : User}
    (h : st.find? p = some u) : u ∈ st :=
  List.mem_of_find?_eq_some h

theorem storeWFb_tail {u : User} {rest : Store} (h : storeWFb (u :: rest) = true) :
    storeWFb rest = true := by
  simp only [storeWFb, Bool.and_eq_true] at h
  exact h.2

theorem storeWFb_head {u : User} {rest : Store} (h : storeWFb (u :: rest) = true) :
    ∀ v ∈ rest, u.id ≠ v.id ∧ u.username ≠ v.username ∧ u.email ≠ v.email ∧
      (u.googleId = none ∨ v.googleId = none ∨ u.googleId ≠ v.googleId) := by
  simp only [storeWFb, Bool.and_eq_true, List.all_eq_true] at h
  intro v hv
  have hx := h.1 v hv
  simp only [Bool.and_eq_true, Bool.or_eq_true, bne_iff_ne, ne_eq, beq_iff_eq] at hx
  tauto

/-- In a well-formed store, two member rows with distinct ids also differ on
every other unique column. -/
theorem storeWFb_distinct {st : Store} (hwf : storeWFb st = true)
    {u v : User} (hu : u ∈ st) (hv : v ∈ st) (hne : u.id ≠ v.id) :
    u.username ≠ v.username ∧ u.email ≠ v.email ∧
      (u.googleId = none ∨ v.googleId = none ∨ u.googleId ≠ v.googleId) := by
  induction st with
  | nil => cases hu
  | cons w rest ih =>
    rcases List.mem_cons.mp hu with hu1 | hu2 <;>
      rcases List.mem_cons.mp hv with hv1 | hv2
    · exact absurd (hv1 ▸ hu1 ▸ rfl) hne
    · subst hu1
      exact (storeWFb_head hwf v hv2).2
    · subst hv1
      rcases storeWFb_head hwf u hu2 with ⟨h1, h2, h3, h4⟩
      refine ⟨fun he => h2 he.symm, fun he => h3 he.symm, ?_⟩
      rcases h4 with hg | hg | hg
      · exact Or.inr (Or.inl hg)
      · exact Or.inl hg
      · exact Or.inr (Or.inr (fun he => hg he.symm))
    · exact ih (storeWFb_tail hwf) hu2 hv2

/-- In a well-formed store, a row found by email is the row `GetByID` finds
for its id. -/
theorem getByID_of_getByEmail {st : Store} (hwf : storeWFb st = true)
    {e : String} {u : User} (h : getByEmail st e = some u) :
    getByID st u.id = some u := by
  induction st with
  | nil => simp [getByEmail] at h
  | cons w rest ih =>
    cases hw : (w.email == e) with
    | true =>
      simp only [getByEmail, List.find?_cons, hw] at h
      cases h
      simp [getByID, List.find?_cons]
    | false =>
      simp only [getByEmail, List.find?_cons, hw] at h
      have hu : u ∈ rest := find?_mem_of_eq_some h
      have hid : w.id ≠ u.id := (storeWFb_head hwf u hu).1
      have hbeq : (w.id == u.id) = false := beq_eq_false_iff_ne.mpr hid
      simp only [getByID, List.find?_cons, hbeq]
      exact ih (storeWFb_tail hwf) h

/-- `getByGoogleID st g = none` means no member row carries `g`. -/
theorem no_googleId_of_getByGoogleID_none {st : Store} {g : String}
    (h : getByGoogleID st g = none) : ∀ v ∈ st, v.googleId ≠ some g := by
  intro v hv he
  have := List.find?_eq_none.mp h v hv
  simp only [beq_iff_eq] at this
  exact this he

/-! ### Structural lemmas about the token layout -/

theorem splitOnDot_ne_nil (xs : List Char) : splitOnDot xs ≠ [] := by
  induction xs with
  | nil => simp [splitOnDot]
  | cons c rest ih =>
    simp only [splitOnDot]
    split
    · simp
    · match h : splitOnDot rest with
      | [] => simp
      | h' :: t => simp

theorem splitOnDot_no_dot (xs : List Char) (h : '.' ∉ xs) : splitOnDot xs = [xs] := by
  induction xs with
  | nil => rfl
  | cons c rest ih =>
    have hc : c ≠ '.' := by intro hc; exact h (hc ▸ List.mem_cons_self c rest)
    have hr : '.' ∉ rest := fun hm => h (List.mem_cons_of_mem c hm)
    simp only [splitOnDot, if_neg hc, ih hr]

theorem splitOnDot_append (xs ys : List Char) (h : '.' ∉ xs) :
    splitOnDot (xs ++ '.' :: ys) = xs :: splitOnDot ys := by
  induction xs with
  | nil => simp [splitOnDot]
  | cons c rest ih =>
    have hc : c ≠ '.' := by intro hc; exact h (hc ▸ List.mem_cons_self c rest)
    have hr : '.' ∉ rest := fun hm => h (List.mem_cons_of_mem c hm)
    have hsplit := ih hr
    simp only [List.cons_append, splitOnDot, if_neg hc, List.append_eq]
    rw [hsplit]

theorem splitOnDot_length (xs : List Char) :
    (splitOnDot xs).length = xs.count '.' + 1 := by
  induction xs with
  | nil => simp [splitOnDot]
  | cons c rest ih =>
    by_cases hc : c = '.'
    · subst hc
      simp [splitOnDot, ih, List.count_cons]
    · simp only [splitOnDot, if_neg hc]
      match h : splitOnDot rest with
      | [] => exact absurd h (splitOnDot_ne_nil rest)
      | h' :: t =>
        have := ih
        rw [h] at this
        simp only [List.length_cons] at this ⊢
        rw [List.count_cons]
        simp [hc, this]

theorem hexDigitChar_ne_dot (n : Nat) (h : n < 16) : hexDigitChar n ≠ '.' := by
  interval_cases n <;> decide

theorem hexEncode_no_dot (bs : List Nat) : '.' ∉ hexEncode bs := by
  induction bs with
  | nil => simp [hexEncode]
  | cons b rest ih =>
    intro hmem
    simp only [hexEncode, List.foldr_cons, List.mem_cons] at hmem
    rcases hmem with h1 | h2 | h3
    · exact hexDigitChar_ne_dot (b / 16 % 16) (Nat.mod_lt _ (by omega)) h1.symm
    · exact hexDigitChar_ne_dot (b % 16) (Nat.mod_lt _ (by omega)) h2.symm
    · exact ih (by simpa [hexEncode] using h3)

theorem natDecimalAux_no_dot (fuel : Nat) :
    ∀ (n : Nat) (acc : List Char), '.' ∉ acc → '.' ∉ natDecimalAux fuel n acc := by
  induction fuel with
  | zero => intro n acc hacc; simpa [natDecimalAux] using hacc
  | succ fuel ih =>
    intro n acc hacc
    simp only [natDecimalAux]
    split
    · rename_i hlt
      intro hmem
      rcases List.mem_cons.mp hmem with h1 | h2
      · interval_cases n <;> exact absurd h1 (by decide)
      · exact hacc h2
    · apply ih
      intro hmem
      rcases List.mem_cons.mp hmem with h1 | h2
      · have h10 : n % 10 < 10 := Nat.mod_lt _ (by omega)
        generalize hd : n % 10 = d at h1 h10
        interval_cases d <;> exact absurd h1 (by decide)
      · exact hacc h2

theorem natDecimal_no_dot (n : Nat) : '.' ∉ natDecimal n :=
  natDecimalAux_no_dot (n + 1) n [] (by simp)

theorem intDecimal_no_dot (t : Int) : '.' ∉ intDecimal t := by
  unfold intDecimal
  split
  · intro hmem
    rcases List.mem_cons.mp hmem with h1 | h2
    · exact absurd h1 (by decide)
    · exact natDecimal_no_dot _ h2
  · exact natDecimal_no_dot _

/-! ## Claim theorems -/

/-- Any secret-key-checked verification whose split does not have exactly
3 fields returns `ErrInvalidStateFormat`. -/
theorem verify_invalidFormat_of_len (p : StatePrims) (s : List Char) (key : List Nat)
    (now : Int) (hk : key ≠ []) (hlen : (splitOnDot s).length ≠ 3) :
    verifyAndExtractState p s key now = .err .invalidFormat := by
  unfold verifyAndExtractState
  rw [if_neg hk]
  rcases h : splitOnDot s with _ | ⟨a, _ | ⟨b, _ | ⟨c, _ | ⟨d, t⟩⟩⟩⟩
  · rfl
  · rfl
  · rfl
  · rw [h] at hlen; simp at hlen
  · rfl

/-- C1: issuing a session token for a user present in the store and validating
it immediately (same clock instant, positive configured TTL) succeeds and
resolves to that same user; the token's subject is `user.id`. -/
theorem jwt_issue_validate_round_trip (hs : JwtSigner) (cfg : Config) (st : Store)
    (now : Int) (user : User) (hstore : getByID st user.id = some user)
    (hexp : 0 < cfg.jwtExpiryMinutes) :
    (generateJWT hs cfg now user).claims.subject = user.id ∧
    validateJWT hs cfg st now (generateJWT hs cfg now user) = .ok user := by
  have h60 : ¬ (now + cfg.jwtExpiryMinutes * 60 ≤ now) := by omega
  exact ⟨rfl, by simp [validateJWT, generateJWT, JwtAlg.isHMAC, hstore, h60]⟩

/-- Witness for C1 at a concrete store, user, clock and configuration. -/
theorem jwt_issue_validate_round_trip_witness :
    validateJWT demoSigner demoCfg demoStoreA 5
      (generateJWT demoSigner demoCfg 5 demoUserA) = .ok demoUserA :=
  (jwt_issue_validate_round_trip demoSigner demoCfg demoStoreA 5 demoUserA
    (by decide) (by decide)).2

/-- C2 (amended): the keyfunc of `ValidateJWT` rejects every token whose
signing method is outside the `*jwt.SigningMethodHMAC` family — so tokens
asserting `RS256`, `ES256`, `EdDSA` or `none` always fail — but it does not
pin the single issued algorithm `HS256`: any HMAC-family algorithm is
accepted when the signature verifies under the configured secret. -/
theorem validateJWT_rejects_non_hmac (hs : JwtSigner) (cfg : Config) (st : Store)
    (now : Int) (tok : JwtToken) (h : tok.alg.isHMAC = false) :
    validateJWT hs cfg st now tok = .error ⟨.unauthorized, "invalid token"⟩ := by
  simp [validateJWT, h]

/-- Witness for C2 (amended): a token asserting `RS256` is rejected. -/
theorem validateJWT_rejects_non_hmac_witness :
    JwtAlg.isHMAC demoRs256Token.alg = false ∧
    validateJWT demoSigner demoCfg demoStoreA 0 demoRs256Token =
      .error ⟨.unauthorized, "invalid token"⟩ :=
  ⟨by decide,
    validateJWT_rejects_non_hmac demoSigner demoCfg demoStoreA 0 demoRs256Token (by decide)⟩

/-- Counterexample to C2 as stated: a token whose algorithm field is `HS384`
(not the issuing algorithm `HS256`), signed under the configured secret, is
accepted rather than rejected. -/
theorem validateJWT_hs384_accepted :
    demoHs384Token.alg ≠ .HS256 ∧
    validateJWT demoSigner demoCfg demoStoreA 0 demoHs384Token = .ok demoUserA := by
  exact ⟨by decide, rfl⟩

/-- C3: branch semantics of `VerifyAndExtractState`: a split without exactly
3 fields is `ErrInvalidStateFormat`; a MAC mismatch over `nonce + "." +
timestamp` is `ErrInvalidStateMAC` (decided before timestamp parsing); an
unparsable timestamp is `ErrInvalidStateFormat`; `now - timestamp` beyond the
10-minute window is `ErrStateExpired`; otherwise the original nonce is
returned. -/
theorem state_verify_branches (p : StatePrims) (signedState : List Char)
    (secretKey : List Nat) (now : Int) (hk : secretKey ≠ []) :
    ((splitOnDot signedState).length ≠ 3 →
      verifyAndExtractState p signedState secretKey now = .err .invalidFormat) ∧
    (∀ n ts g, splitOnDot signedState = [n, ts, g] →
      (g ≠ hexEncode (p.hmacSha256 secretKey (n ++ '.' :: ts)) →
        verifyAndExtractState p signedState secretKey now = .err .invalidMAC) ∧
      (g = hexEncode (p.hmacSha256 secretKey (n ++ '.' :: ts)) →
        (p.sscanInt ts = none →
          verifyAndExtractState p signedState secretKey now = .err .invalidFormat) ∧
        (∀ tv, p.sscanInt ts = some tv →
          (now - tv > stateExpirySecs →
            verifyAndExtractState p signedState secretKey now = .err .expired) ∧
          (now - tv ≤ stateExpirySecs →
            verifyAndExtractState p signedState secretKey now = .ok n)))) := by
  refine ⟨fun hlen => verify_invalidFormat_of_len p signedState secretKey now hk hlen, ?_⟩
  intro n ts g hsplit
  have hbase : verifyAndExtractState p signedState secretKey now =
      (if g ≠ hexEncode (p.hmacSha256 secretKey (n ++ '.' :: ts)) then
        StateVerifyRes.err .invalidMAC
       else
         match p.sscanInt ts with
         | none => StateVerifyRes.err .invalidFormat
         | some timestamp =>
           if now - timestamp > stateExpirySecs then StateVerifyRes.err .expired
           else StateVerifyRes.ok n) := by
    unfold verifyAndExtractState
    rw [if_neg hk, hsplit]
  refine ⟨fun hne => by rw [hbase, if_pos hne],
    fun heq => ⟨fun hparse => ?_, fun tv hparse => ⟨fun hgt => ?_, fun hle => ?_⟩⟩⟩
  · rw [hbase, if_neg (not_not_intro heq), hparse]
  · rw [hbase, if_neg (not_not_intro heq), hparse]
    show (if now - tv > stateExpirySecs then StateVerifyRes.err StateErr.expired
      else StateVerifyRes.ok n) = StateVerifyRes.err StateErr.expired
    rw [if_pos hgt]
  · rw [hbase, if_neg (not_not_intro heq), hparse]
    show (if now - tv > stateExpirySecs then StateVerifyRes.err StateErr.expired
      else StateVerifyRes.ok n) = StateVerifyRes.ok n
    rw [if_neg (not_lt.mpr hle)]

/-- Witness for C3: the spec's expiry-window pair — a token timestamped 0
verifies at 599 seconds and is `Expired` at 601 seconds. -/
theorem state_verify_branches_witness :
    verifyAndExtractState demoPrims ['a', '.', '0', '.', '0', '4'] [1] 599 = .ok ['a'] ∧
    verifyAndExtractState demoPrims ['a', '.', '0', '.', '0', '4'] [1] 601 = .err .expired := by
  constructor
  · exact (((((state_verify_branches demoPrims
      ['a', '.', '0', '.', '0', '4'] [1] 599 (by decide)).2
        ['a'] ['0'] ['0', '4'] (by decide)).2 (by decide)).2 0 (by decide)).2 (by decide))
  · exact (((((state_verify_branches demoPrims
      ['a', '.', '0', '.', '0', '4'] [1] 601 (by decide)).2
        ['a'] ['0'] ['0', '4'] (by decide)).2 (by decide)).2 0 (by decide)).1 (by decide))

/-- C6: a fetched profile with `verifiedEmail = false` is rejected with
`Unauthorized` before any store access: the store is returned unchanged and
the repository-call trace is empty. -/
theorem oauth_unverified_email_rejected (hs : JwtSigner) (cfg : Config) (now : Int)
    (freshId : String) (prov : ProviderResult) (st : Store) (ui : GoogleUserInfo)
    (hex : prov.exchangeOk = true) (hui : prov.userInfo = .ok ui)
    (hver : ui.verifiedEmail = false) :
    handleGoogleCallback hs cfg now freshId prov st =
      (.error ⟨.unauthorized, "google email not verified"⟩, st, []) := by
  simp [handleGoogleCallback, hex, hui, hver]

/-- Witness for C6 at a concrete provider profile and store. -/
theorem oauth_unverified_email_rejected_witness :
    handleGoogleCallback demoSigner demoCfg 0 "u-9" provUnverified demoStoreA =
      (.error ⟨.unauthorized, "google email not verified"⟩, demoStoreA, []) :=
  oauth_unverified_email_rejected demoSigner demoCfg 0 "u-9" provUnverified demoStoreA
    uiUnverified (by decide) rfl (by decide)

/-- C7 (amended): a login that resolves a user with an empty password hash is
refused; when the account has a google id the refusal is `Unauthorized`
(distinguished from bad credentials only by the message), but when the google
id is also null — a record violating the reachability invariant — the code
returns `Internal`, not `Unauthorized`. -/
theorem login_passwordless_account (ext : AuthExt) (hs : JwtSigner) (cfg : Config)
    (now : Int) (st : Store) (creds : LoginCredentials) (user : User)
    (hval : validateLoginInput ext creds = true)
    (hfind : getByEmail st creds.email = some user)
    (hhash : user.passwordHash = "") :
    (user.googleId.isSome = true →
      login ext hs cfg now st creds =
        .error ⟨.unauthorized, "please log in using Google"⟩) ∧
    (user.googleId = none →
      login ext hs cfg now st creds =
        .error ⟨.internal, "account error, please contact support"⟩) := by
  constructor
  · intro hg
    simp [login, hval, hfind, hhash, hg]
  · intro hg
    simp [login, hval, hfind, hhash, hg]

/-- Witness for C7 (amended): the google-linked passwordless account is
steered to the OAuth flow with an `Unauthorized` error. -/
theorem login_passwordless_account_witness :
    login demoExt demoSigner demoCfg 0 demoStoreBg demoLoginCredsG =
      .error ⟨.unauthorized, "please log in using Google"⟩ :=
  (login_passwordless_account demoExt demoSigner demoCfg 0 demoStoreBg demoLoginCredsG
    googleLinkedUser (by decide) (by decide) (by decide)).1 (by decide)

/-- Counterexample to C7 as stated: a stored user with `passwordHash = ""`
and a null google id makes login return an `Internal` error, not
`Unauthorized`. -/
theorem login_passwordless_internal_counterexample :
    login demoExt demoSigner demoCfg 0 demoStoreB demoLoginCreds =
      .error ⟨.internal, "account error, please contact support"⟩ ∧
    ErrKind.internal ≠ ErrKind.unauthorized :=
  ⟨rfl, by decide⟩

/-- C10: the `COALESCE`-based update applied with the linking patch
`{GoogleID: &gid, EmailVerified: true}` changes only `google_id`,
`email_verified` (and the trigger-driven `updated_at`): username, email,
password hash and creation time are untouched. -/
theorem link_update_frame_effect (now : Int) (cur : User) (gid : String) :
    (applyUserPatch now cur (linkPatch gid)).username = cur.username ∧
    (applyUserPatch now cur (linkPatch gid)).email = cur.email ∧
    (applyUserPatch now cur (linkPatch gid)).passwordHash = cur.passwordHash ∧
    (applyUserPatch now cur (linkPatch gid)).createdAt = cur.createdAt ∧
    (applyUserPatch now cur (linkPatch gid)).googleId = some gid ∧
    (applyUserPatch now cur (linkPatch gid)).emailVerified = true := by
  simp [applyUserPatch, linkPatch, emptyUser]

/-- A row found by email is a member of the store. -/
theorem getByEmail_mem {st : Store} {e : String} {u : User}
    (h : getByEmail st e = some u) : u ∈ st :=
  List.mem_of_find?_eq_some (by simpa [getByEmail] using h)

/-- C4: an OAuth callback that misses on `google_id`, hits on email, and finds
a different non-null `google_id` on that user returns `Conflict`, leaves the
store untouched, and performs zero store writes. -/
theorem oauth_conflict_zero_writes
    (hs : JwtSigner) (cfg : Config) (now : Int) (freshId : String)
    (prov : ProviderResult) (st : Store) (ui : GoogleUserInfo) (user : User)
    (g : String)
    (hex : prov.exchangeOk = true) (hui : prov.userInfo = .ok ui)
    (hver : ui.verifiedEmail = true)
    (hg : getByGoogleID st ui.id = none)
    (he : getByEmail st ui.email = some user)
    (hgid : user.googleId = some g)
    (hne : g ≠ ui.id) :
    handleGoogleCallback hs cfg now freshId prov st =
      (.error ⟨.conflict, "email already linked to a different Google account"⟩, st,
        [.opGetByGoogleID ui.id, .opGetByEmail ui.email]) ∧
    ((handleGoogleCallback hs cfg now freshId prov st).2.2.filter StoreOp.isWrite) = [] := by
  have h1 : handleGoogleCallback hs cfg now freshId prov st =
      (.error ⟨.conflict, "email already linked to a different Google account"⟩, st,
        [.opGetByGoogleID ui.id, .opGetByEmail ui.email]) := by
    simp [handleGoogleCallback, hex, hui, hver, hg, he, hgid, hne]
  exact ⟨h1, by rw [h1]; rfl⟩

/-- Witness for C4 at a concrete store whose matching user carries a
different google id. -/
theorem oauth_conflict_zero_writes_witness :
    handleGoogleCallback demoSigner demoCfg 0 "u-9" provConflict [userConflict] =
      (.error ⟨.conflict, "email already linked to a different Google account"⟩,
        [userConflict],
        [.opGetByGoogleID uiConflict.id, .opGetByEmail uiConflict.email]) :=
  (oauth_conflict_zero_writes demoSigner demoCfg 0 "u-9" provConflict [userConflict]
    uiConflict userConflict "g-old" (by decide) rfl (by decide) (by decide) (by decide)
    (by decide) (by decide)).1

/-- C5: an OAuth callback that misses on `google_id` but finds a user by email
with no google id performs exactly one store write — the `COALESCE` update
with patch `{GoogleID, EmailVerified: true}` — and issues a session token for
the updated user. -/
theorem oauth_links_unlinked_account
    (hs : JwtSigner) (cfg : Config) (now : Int) (freshId : String)
    (prov : ProviderResult) (st : Store) (ui : GoogleUserInfo) (user : User)
    (hwf : storeWFb st = true)
    (hex : prov.exchangeOk = true) (hui : prov.userInfo = .ok ui)
    (hver : ui.verifiedEmail = true)
    (hg : getByGoogleID st ui.id = none)
    (he : getByEmail st ui.email = some user)
    (hgid : user.googleId = none) :
    updateUser st user.id (linkPatch ui.id) now =
      .ok (applyUserPatch now user (linkPatch ui.id),
        listUpdate st user.id (applyUserPatch now user (linkPatch ui.id))) ∧
    handleGoogleCallback hs cfg now freshId prov st =
      (.ok (generateJWT hs cfg now (applyUserPatch now user (linkPatch ui.id)),
          applyUserPatch now user (linkPatch ui.id)),
        listUpdate st user.id (applyUserPatch now user (linkPatch ui.id)),
        [.opGetByGoogleID ui.id, .opGetByEmail ui.email,
          .opUpdate user.id (linkPatch ui.id)]) ∧
    (applyUserPatch now user (linkPatch ui.id)).googleId = some ui.id ∧
    (applyUserPatch now user (linkPatch ui.id)).emailVerified = true ∧
    ((handleGoogleCallback hs cfg now freshId prov st).2.2.filter StoreOp.isWrite) =
      [.opUpdate user.id (linkPatch ui.id)] := by
  have hid : getByID st user.id = some user := getByID_of_getByEmail hwf he
  have hmem : user ∈ st := getByEmail_mem he
  have hU1 : (applyUserPatch now user (linkPatch ui.id)).username = user.username := by
    simp [applyUserPatch, linkPatch, emptyUser]
  have hU2 : (applyUserPatch now user (linkPatch ui.id)).email = user.email := by
    simp [applyUserPatch, linkPatch, emptyUser]
  have hU3 : (applyUserPatch now user (linkPatch ui.id)).googleId = some ui.id := by
    simp [applyUserPatch, linkPatch, emptyUser]
  have hany : (st.any fun v => v.id != user.id &&
      (v.username == (applyUserPatch now user (linkPatch ui.id)).username ||
        v.email == (applyUserPatch now user (linkPatch ui.id)).email ||
        ((applyUserPatch now user (linkPatch ui.id)).googleId.isSome &&
          v.googleId == (applyUserPatch now user (linkPatch ui.id)).googleId))) = false := by
    rw [List.any_eq_false]
    intro v hv
    by_cases hvid : v.id = user.id
    · simp [hvid]
    · have hdist := storeWFb_distinct hwf hv hmem hvid
      have hgoog : v.googleId ≠ some ui.id := no_googleId_of_getByGoogleID_none hg v hv
      simp [hU1, hU2, hU3, hdist.1, hdist.2.1, hgoog, hvid]
  have hupdate : updateUser st user.id (linkPatch ui.id) now =
      .ok (applyUserPatch now user (linkPatch ui.id),
        listUpdate st user.id (applyUserPatch now user (linkPatch ui.id))) := by
    simp only [updateUser, hid]
    rw [if_neg (by simp [hany])]
  have hmain : handleGoogleCallback hs cfg now freshId prov st =
      (.ok (generateJWT hs cfg now (applyUserPatch now user (linkPatch ui.id)),
          applyUserPatch now user (linkPatch ui.id)),
        listUpdate st user.id (applyUserPatch now user (linkPatch ui.id)),
        [.opGetByGoogleID ui.id, .opGetByEmail ui.email,
          .opUpdate user.id (linkPatch ui.id)]) := by
    simp [handleGoogleCallback, hex, hui, hver, hg, he, hgid, hupdate]
  refine ⟨hupdate, hmain, hU3, by simp [applyUserPatch, linkPatch, emptyUser], ?_⟩
  rw [hmain]
  rfl

/-- Witness for C5: linking a concrete password account to a google identity. -/
theorem oauth_links_unlinked_account_witness :
    handleGoogleCallback demoSigner demoCfg 9 "u-9" provLink [userLink] =
      (.ok (generateJWT demoSigner demoCfg 9 (applyUserPatch 9 userLink (linkPatch uiLink.id)),
          applyUserPatch 9 userLink (linkPatch uiLink.id)),
        listUpdate [userLink] userLink.id (applyUserPatch 9 userLink (linkPatch uiLink.id)),
        [.opGetByGoogleID uiLink.id, .opGetByEmail uiLink.email,
          .opUpdate userLink.id (linkPatch uiLink.id)]) ∧
    (applyUserPatch 9 userLink (linkPatch uiLink.id)).googleId = some uiLink.id := by
  have h := oauth_links_unlinked_account demoSigner demoCfg 9 "u-9" provLink [userLink]
    uiLink userLink (by decide) (by decide) rfl (by decide) (by decide) (by decide)
    (by decide)
  exact ⟨h.2.1, h.2.2.1⟩

/-- C8: when `Create` reports a uniqueness conflict, `Signup` re-queries by
email and returns `Conflict` naming the email when that read finds a row and
the username otherwise; the store is unchanged either way. -/
theorem signup_conflict_disambiguation
    (ext : AuthExt) (st : Store) (freshId : String) (now : Int)
    (creds : SignupCredentials) (hashed : String)
    (hval : validateSignupInput ext creds = true)
    (hhash : ext.bcryptHash creds.password = .ok hashed)
    (hconf : createUser st freshId now (signupNewUser creds hashed) = .error .conflict) :
    ((getByEmail st creds.email).isSome = true →
      signup ext st freshId now creds =
        (.error ⟨.conflict, "email already exists"⟩, st,
          [.opCreate (signupNewUser creds hashed), .opGetByEmail creds.email])) ∧
    (getByEmail st creds.email = none →
      signup ext st freshId now creds =
        (.error ⟨.conflict, "username already exists"⟩, st,
          [.opCreate (signupNewUser creds hashed), .opGetByEmail creds.email])) := by
  constructor
  · intro hsome
    obtain ⟨u, hu⟩ := Option.isSome_iff_exists.mp hsome
    simp [signup, hval, hhash, hconf, hu]
  · intro hnone
    simp [signup, hval, hhash, hconf, hnone]

/-- Witness for C8: a second signup with an already-stored email yields the
email-naming conflict and no new row. -/
theorem signup_conflict_disambiguation_witness :
    signup demoExt demoStoreA "u-9" 1 credsTakenEmail =
      (.error ⟨.conflict, "email already exists"⟩, demoStoreA,
        [.opCreate (signupNewUser credsTakenEmail "bcrypt-hash"),
          .opGetByEmail credsTakenEmail.email]) :=
  (signup_conflict_disambiguation demoExt demoStoreA "u-9" 1 credsTakenEmail
    "bcrypt-hash" (by decide) rfl rfl).1 (by decide)

/-- C9: the State Protector round-trip.  A freshly signed token verifies back
to the original nonce within the window exactly when the nonce has no `.`;
a nonce containing `.` makes the fresh token split into more than 3 fields,
so verification fails with `ErrInvalidStateFormat`. -/
theorem state_sign_verify_round_trip
    (p : StatePrims) (nonce : List Char) (key : List Nat) (t now : Int)
    (signed : List Char) (hk : key ≠ [])
    (hsig : signState p nonce key t = some signed) :
    ('.' ∉ nonce → p.sscanInt (intDecimal t) = some t → now - t ≤ stateExpirySecs →
      verifyAndExtractState p signed key now = .ok nonce) ∧
    ('.' ∈ nonce → verifyAndExtractState p signed key now = .err .invalidFormat) := by
  have hsigned : signed =
      (nonce ++ '.' :: intDecimal t) ++ '.' ::
        hexEncode (p.hmacSha256 key (nonce ++ '.' :: intDecimal t)) := by
    have hs' := hsig
    simp only [signState, if_neg hk, Option.some.injEq] at hs'
    exact hs'.symm
  constructor
  · intro hnd hparse hwin
    have hsplit : splitOnDot signed =
        [nonce, intDecimal t,
          hexEncode (p.hmacSha256 key (nonce ++ '.' :: intDecimal t))] := by
      rw [hsigned, List.append_assoc, List.cons_append,
        splitOnDot_append nonce _ hnd,
        splitOnDot_append (intDecimal t) _ (intDecimal_no_dot t),
        splitOnDot_no_dot _ (hexEncode_no_dot _)]
    unfold verifyAndExtractState
    have hmac : ¬ (hexEncode (p.hmacSha256 key (nonce ++ '.' :: intDecimal t)) ≠
        hexEncode (p.hmacSha256 key (nonce ++ '.' :: intDecimal t))) := not_not_intro rfl
    rw [if_neg hk, hsplit]
    show (if hexEncode (p.hmacSha256 key (nonce ++ '.' :: intDecimal t)) ≠
        hexEncode (p.hmacSha256 key (nonce ++ '.' :: intDecimal t)) then
          StateVerifyRes.err StateErr.invalidMAC
      else
        match p.sscanInt (intDecimal t) with
        | none => StateVerifyRes.err StateErr.invalidFormat
        | some timestamp =>
          if now - timestamp > stateExpirySecs then StateVerifyRes.err StateErr.expired
          else StateVerifyRes.ok nonce) = StateVerifyRes.ok nonce
    rw [if_neg hmac, hparse]
    show (if now - t > stateExpirySecs then StateVerifyRes.err StateErr.expired
      else StateVerifyRes.ok nonce) = StateVerifyRes.ok nonce
    rw [if_neg (not_lt.mpr hwin)]
  · intro hdot
    apply verify_invalidFormat_of_len p signed key now hk
    rw [hsigned, splitOnDot_length]
    have h1 : nonce.count '.' ≠ 0 := fun h0 => (List.count_eq_zero.mp h0) hdot
    simp only [List.count_append, List.count_cons_self]
    omega

/-- Witness for C9: both directions at concrete nonces (`"ab"` and `"a.b"`),
key, timestamp and clock. -/
theorem state_sign_verify_round_trip_witness :
    verifyAndExtractState demoPrims ['a', 'b', '.', '7', '.', '0', '6'] [2] 100 =
      .ok ['a', 'b'] ∧
    verifyAndExtractState demoPrims ['a', '.', 'b', '.', '7', '.', '0', '7'] [2] 100 =
      .err .invalidFormat := by
  constructor
  · exact (state_sign_verify_round_trip demoPrims ['a', 'b'] [2] 7 100
      ['a', 'b', '.', '7', '.', '0', '6'] (by decide) rfl).1
      (by decide) (by decide) (by decide)
  · exact (state_sign_verify_round_trip demoPrims ['a', '.', 'b'] [2] 7 100
      ['a', '.', 'b', '.', '7', '.', '0', '7'] (by decide) rfl).2 (by decide)

end TodoAuth
